import Mathlib

/-!
Verification of the inventory views of the `sal` repository
(`src/inventory/views.py`) against its natural-language specification.

The Python module is shallowly embedded: the database is an explicit state
(`DB`), each Django view becomes a pure Lean function over that state, and
request handling returns the new state plus a response value.  Machine/group
lookups (`Machine.objects.get`, `get_object_or_404`) become `List.find?`;
`get_or_create` and queryset filters become list operations; SHA-256 is
implemented bit-for-bit over byte lists so the stored hash string is the real
lowercase hex digest.
-/

/-! ## SHA-256 (models Python's `hashlib.sha256(...).hexdigest()`) -/

/-- 32-bit right rotation on `Nat`, result reduced mod 2^32. -/
def rotr (n x : Nat) : Nat := ((x >>> n) ||| (x <<< (32 - n))) % 4294967296

def smallSigma0 (x : Nat) : Nat := (rotr 7 x) ^^^ (rotr 18 x) ^^^ (x >>> 3)

def smallSigma1 (x : Nat) : Nat := (rotr 17 x) ^^^ (rotr 19 x) ^^^ (x >>> 10)

def bigSigma0 (x : Nat) : Nat := (rotr 2 x) ^^^ (rotr 13 x) ^^^ (rotr 22 x)

def bigSigma1 (x : Nat) : Nat := (rotr 6 x) ^^^ (rotr 11 x) ^^^ (rotr 25 x)

def chFn (x y z : Nat) : Nat := (x &&& y) ^^^ ((x ^^^ 4294967295) &&& z)

def majFn (x y z : Nat) : Nat := (x &&& y) ^^^ (x &&& z) ^^^ (y &&& z)

/-- The 64 SHA-256 round constants, written in decimal. -/
def sha256K : List Nat :=
  [1116352408, 1899447441, 3049323471, 3921009573, 961987163,
   1508970993, 2453635748, 2870763221, 3624381080, 310598401,
   607225278, 1426881987, 1925078388, 2162078206, 2614888103,
   3248222580, 3835390401, 4022224774, 264347078, 604807628,
   770255983, 1249150122, 1555081692, 1996064986, 2554220882,
   2821834349, 2952996808, 3210313671, 3336571891, 3584528711,
   113926993, 338241895, 666307205, 773529912, 1294757372,
   1396182291, 1695183700, 1986661051, 2177026350, 2456956037,
   2730485921, 2820302411, 3259730800, 3345764771, 3516065817,
   3600352804, 4094571909, 275423344, 430227734, 506948616,
   659060556, 883997877, 958139571, 1322822218, 1537002063,
   1747873779, 1955562222, 2024104815, 2227730452, 2361852424,
   2428436474, 2756734187, 3204031479, 3329325298]

/-- The SHA-256 initial hash value, written in decimal. -/
def sha256H0 : List Nat :=
  [1779033703, 3144134277, 1013904242, 2773480762,
   1359893119, 2600822924, 528734635, 1541459225]

/-- Big-endian byte encoding of `n` on `k` bytes. -/
def toBytesBE : Nat → Nat → List Nat
  | 0, _ => []
  | k + 1, n => toBytesBE k (n / 256) ++ [n % 256]

/-- SHA-256 padding: append 0x80, zero bytes, and the 64-bit big-endian bit
length so the total length is a multiple of 64 bytes. -/
def sha256pad (msg : List Nat) : List Nat :=
  let padZeros := (119 - msg.length % 64) % 64
  msg ++ [0x80] ++ List.replicate padZeros 0 ++ toBytesBE 8 (8 * msg.length)

/-- Big-endian 32-bit word from up to four bytes. -/
def bytesToWord (bs : List Nat) : Nat := bs.foldl (fun a b => a * 256 + b) 0

/-- The next message-schedule word from the words computed so far. -/
def nextScheduleWord (w : List Nat) : Nat :=
  let i := w.length
  (smallSigma1 (w.getD (i - 2) 0) + w.getD (i - 7) 0 +
   smallSigma0 (w.getD (i - 15) 0) + w.getD (i - 16) 0) % 4294967296

/-- Extend the 16 block words by `k` further schedule words. -/
def buildSchedule (w : List Nat) : Nat → List Nat
  | 0 => w
  | k + 1 => buildSchedule (w ++ [nextScheduleWord w]) k

/-- One SHA-256 compression round on state `[a,b,c,d,e,f,g,h]`. -/
def sha256round (st : List Nat) (k w : Nat) : List Nat :=
  match st with
  | [a, b, c, d, e, f, g, h] =>
    let t1 := (h + bigSigma1 e + chFn e f g + k + w) % 4294967296
    let t2 := (bigSigma0 a + majFn a b c) % 4294967296
    [(t1 + t2) % 4294967296, a, b, c, (d + t1) % 4294967296, e, f, g]
  | _ => st

/-- Process one 64-byte block, updating the 8-word hash state. -/
def sha256Block (h : List Nat) (block : List Nat) : List Nat :=
  let w0 := (List.range 16).map (fun i => bytesToWord ((block.drop (4 * i)).take 4))
  let w := buildSchedule w0 48
  let st := (sha256K.zip w).foldl (fun s kw => sha256round s kw.1 kw.2) h
  (h.zip st).map (fun p => (p.1 + p.2) % 4294967296)

/-- Fold the hash state over `n` consecutive 64-byte blocks. -/
def sha256Blocks (h : List Nat) (msg : List Nat) : Nat → List Nat
  | 0 => h
  | n + 1 => sha256Blocks (sha256Block h (msg.take 64)) (msg.drop 64) n

/-- SHA-256 digest of a byte list, as eight 32-bit words. -/
def sha256words (msg : List Nat) : List Nat :=
  let padded := sha256pad msg
  sha256Blocks sha256H0 padded (padded.length / 64)

/-- Lowercase hex digit for `n < 16`. -/
def hexDigitChar (n : Nat) : Char :=
  if n < 10 then Char.ofNat (48 + n) else Char.ofNat (87 + n)

/-- Eight lowercase hex characters of a 32-bit word, most significant first. -/
def wordHexChars (w : Nat) : List Char :=
  (List.range 8).map (fun i => hexDigitChar ((w >>> (28 - 4 * i)) % 16))

/-- `hashlib.sha256(bytes).hexdigest()`: the 64-character lowercase hex digest. -/
def sha256hex (msg : List Nat) : String :=
  String.mk (((sha256words msg).map wordHexChars).flatten)

/-- FIPS 180-4 test vector: the digest of the empty message. -/
theorem sha256hex_empty :
    sha256hex [] = "e3b0c44298fc1c149afbf4c8996fb92427ae41e4649b934ca495991b7852b855" := by
  rfl

/-- FIPS 180-4 test vector: the digest of "abc". -/
theorem sha256hex_abc :
    sha256hex [97, 98, 99] =
      "ba7816bf8f01cfea414140de5dae2223b00361a396177a9cb410ff61f20015ad" := by
  rfl

/-! ## Data model (from `server/models` and `inventory/models` as used by the views) -/

/-- `server.models.Machine`: the fields read or written by `inventory/views.py`. -/
structure Machine where
  id : Nat
  serial : String
  machineGroupId : Nat
  lastInventoryUpdate : Nat
deriving DecidableEq, Repr

/-- `server.models.MachineGroup`: id plus its `business_unit` foreign key. -/
structure MachineGroup where
  id : Nat
  businessUnitId : Nat
deriving DecidableEq, Repr

/-- `inventory.models.Application`: identified by `(bundleid, name, bundlename)`. -/
structure Application where
  bundleid : String
  name : String
  bundlename : String
deriving DecidableEq, Repr

/-- `inventory.models.InventoryItem`: one observed installation on a machine. -/
structure InventoryItem where
  machineId : Nat
  application : Application
  version : String
  path : String
deriving DecidableEq, Repr

/-- The database state the views read and write.  `metas` models the
`Inventory` table: at most one `(machine id, sha256hash)` row per machine. -/
structure DB where
  machines : List Machine
  machineGroups : List MachineGroup
  applications : List Application
  items : List InventoryItem
  metas : List (Nat × String)
deriving DecidableEq, Repr

/-- One element of the parsed plist: a mapping whose keys may be absent
(`item.get(key)` returns `None` when missing). -/
structure PlistEntry where
  bundleid : Option String
  name : Option String
  cfBundleName : Option String
  version : Option String
  path : Option String
deriving DecidableEq, Repr

/-- An HTTP response: `HttpResponseNotFound` or a plain `HttpResponse`. -/
inductive Resp where
  | notFound (body : String)
  | ok (body : String)
deriving DecidableEq, Repr

/-! ## Inventory submission handler (`inventory_submit`, views.py lines 381-435) -/

/-- The static `bundleid_ignorelist` from `inventory_submit`. -/
def bundleid_ignorelist : List String := ["com.apple.print.PrinterProxy"]

/-- `compressed_inventory.replace(" ", "+")`. -/
def spaceToPlus (s : String) : String :=
  String.mk (s.data.map (fun c => if c = ' ' then '+' else c))

/-- `item.get('bundleid') in bundleid_ignorelist`: an absent bundleid is
`None`, which is never in the list. -/
def entryIgnored (e : PlistEntry) : Bool :=
  match e.bundleid with
  | some b => b ∈ bundleid_ignorelist
  | none => false

/-- The `Application` triple passed to `get_or_create`:
`bundleid=item.get("bundleid", "")`, `name=item.get("name", "")`,
`bundlename=item.get("CFBundleName", "")`. -/
def entryApplication (e : PlistEntry) : Application :=
  { bundleid := e.bundleid.getD "", name := e.name.getD "",
    bundlename := e.cfBundleName.getD "" }

/-- The `InventoryItem` created by `machine.inventoryitem_set.create(...)`:
`version=item.get("version", "")`, `path=item.get('path', '')`. -/
def mkItem (mid : Nat) (e : PlistEntry) : InventoryItem :=
  { machineId := mid, application := entryApplication e,
    version := e.version.getD "", path := e.path.getD "" }

/-- `Application.objects.get_or_create` on the identifying triple: reuse the
existing row if present, else append a new one. -/
def getOrCreateApp (apps : List Application) (a : Application) : List Application :=
  if a ∈ apps then apps else apps ++ [a]

/-- The `for item in inventory_list:` loop.  For EVERY entry the Application is
get-or-created first; only the `inventoryitem_set.create` is guarded by the
ignore-list check. -/
def processEntries (mid : Nat) (apps : List Application) (items : List InventoryItem) :
    List PlistEntry → List Application × List InventoryItem
  | [] => (apps, items)
  | e :: rest =>
    let apps' := getOrCreateApp apps (entryApplication e)
    let items' := if entryIgnored e then items else items ++ [mkItem mid e]
    processEntries mid apps' items' rest

/-- Upsert of the `Inventory` row for a machine: `Inventory.objects.get` or a
fresh `Inventory(machine=machine)`, then `sha256hash` assigned and saved. -/
def upsertMeta (metas : List (Nat × String)) (mid : Nat) (h : String) :
    List (Nat × String) :=
  if metas.any (fun p => p.1 = mid) then
    metas.map (fun p => if p.1 = mid then (mid, h) else p)
  else metas ++ [(mid, h)]

/-- The truthy-plist branch of `inventory_submit`: upsert the hash, delete the
machine's existing items, run the entry loop, stamp `last_inventory_update`. -/
def applyInventory (db : DB) (mid : Nat) (hash : String) (entries : List PlistEntry)
    (now : Nat) : DB :=
  let kept := db.items.filter (fun i => i.machineId ≠ mid)
  let pair := processEntries mid db.applications kept entries
  { machines := db.machines.map (fun m =>
      if m.id = mid then { m with lastInventoryUpdate := now } else m),
    machineGroups := db.machineGroups,
    applications := pair.1,
    items := pair.2,
    metas := upsertMeta db.metas mid hash }

/-- Modelled from the spec: `utils.decode_to_string` (in `server/utils.py`, not
under `src/`) reverses the base64 encoding and the compression of the payload;
per spec step 4 a decoding failure is treated exactly like a parse failure
("no inventory submitted": swallow the error, persist nothing).  We model the
decoder abstractly as a total function returning `none` on failure; the handler
takes it as a parameter, as it does the plist reader from the `plistlib`
library. -/
def DecodeFun : Type := String → Option (List Nat)

/-- `plistlib.readPlistFromString`, abstract: `none` models the exception the
handler catches, `some entries` the parsed top-level list. -/
def PlistFun : Type := List Nat → Option (List PlistEntry)

/-- `inventory_submit(request)` (views.py lines 381-435).  The request is
`(method, serial, payload)` where empty strings model both absent and falsy
form fields; `now` is `datetime.now()`.  Returns the updated database and the
response. -/
def inventory_submit (decode : DecodeFun) (readPlist : PlistFun) (now : Nat)
    (method serial payload : String) (db : DB) : DB × Resp :=
  if method ≠ "POST" then (db, Resp.notFound "No POST data sent")
  else if serial = "" then (db, Resp.ok "No inventory submitted.\n")
  else
    match db.machines.find? (fun m => m.serial = serial) with
    | none => (db, Resp.notFound "Serial Number not found")
    | some machine =>
      if payload = "" then (db, Resp.ok "No inventory submitted.\n")
      else
        let ack := Resp.ok ("Inventory submmitted for " ++ serial ++ ".\n")
        match decode (spaceToPlus payload) with
        | none => (db, ack)
        | some bytes =>
          match readPlist bytes with
          | none => (db, ack)
          | some [] => (db, ack)
          | some (e :: es) =>
            (applyInventory db machine.id (sha256hex bytes) (e :: es) now, ack)

/-! ## Hash lookup (`inventory_hash`, views.py lines 438-451) -/

/-- `inventory_hash(request, serial)`: the stored hash, `""` when the machine
or its `Inventory` row is missing, and `"MACHINE NOT FOUND"` for a falsy
serial. -/
def inventory_hash (serial : String) (db : DB) : Resp :=
  if serial = "" then Resp.ok "MACHINE NOT FOUND"
  else
    match db.machines.find? (fun m => m.serial = serial) with
    | none => Resp.ok ""
    | some m =>
      match db.metas.find? (fun p => p.1 = m.id) with
      | none => Resp.ok ""
      | some p => Resp.ok p.2

/-! ## C6, C9, C10, C2: control flow of the two endpoints -/

/-- C6: hash lookup returns the stored hash for a resolvable serial with an
`Inventory` row, the empty string when the machine or its row is missing, and
the fixed "MACHINE NOT FOUND" body for an empty serial. -/
theorem c6_inventory_hash_contract (serial : String) (db : DB) :
    (serial = "" → inventory_hash serial db = Resp.ok "MACHINE NOT FOUND") ∧
    (serial ≠ "" → ∀ m, db.machines.find? (fun x => x.serial = serial) = some m →
      (∀ p, db.metas.find? (fun q => q.1 = m.id) = some p →
        inventory_hash serial db = Resp.ok p.2) ∧
      (db.metas.find? (fun q => q.1 = m.id) = none →
        inventory_hash serial db = Resp.ok "")) ∧
    (serial ≠ "" → db.machines.find? (fun x => x.serial = serial) = none →
      inventory_hash serial db = Resp.ok "") := by
  refine ⟨?_, fun hs m hm => ⟨?_, ?_⟩, ?_⟩ <;> intros <;>
    simp [inventory_hash, *]

/-- Closed witness for `c6_inventory_hash_contract`. -/
theorem c6_witness :
    inventory_hash "SER1"
      { machines := [⟨1, "SER1", 10, 0⟩], machineGroups := [],
        applications := [], items := [], metas := [(1, "deadbeef")] } =
      Resp.ok "deadbeef" := by
  exact ((c6_inventory_hash_contract "SER1"
      { machines := [⟨1, "SER1", 10, 0⟩], machineGroups := [],
        applications := [], items := [], metas := [(1, "deadbeef")] }).2.1
    (by decide) ⟨1, "SER1", 10, 0⟩ (by decide)).1 (1, "deadbeef") (by decide)

/-- C9: a non-POST request yields a 404-style "No POST data sent" response and
leaves the state unchanged; a POST whose non-empty serial resolves to no
machine yields a 404-style "Serial Number not found" response with the state
unchanged; a POST with an empty serial performs no processing and acknowledges
"No inventory submitted". -/
theorem c9_submit_request_validation (decode : DecodeFun) (readPlist : PlistFun)
    (now : Nat) (method serial payload : String) (db : DB) :
    (method ≠ "POST" →
      inventory_submit decode readPlist now method serial payload db =
        (db, Resp.notFound "No POST data sent")) ∧
    (method = "POST" → serial ≠ "" →
      db.machines.find? (fun m => m.serial = serial) = none →
      inventory_submit decode readPlist now method serial payload db =
        (db, Resp.notFound "Serial Number not found")) ∧
    (method = "POST" → serial = "" →
      inventory_submit decode readPlist now method serial payload db =
        (db, Resp.ok "No inventory submitted.\n")) := by
  refine ⟨?_, ?_, ?_⟩ <;> intros <;> simp [inventory_submit, *]

/-- Closed witness for `c9_submit_request_validation`. -/
theorem c9_witness :
    inventory_submit (fun _ => none) (fun _ => none) 0 "GET" "S" ""
      { machines := [], machineGroups := [], applications := [],
        items := [], metas := [] } =
      ({ machines := [], machineGroups := [], applications := [],
         items := [], metas := [] }, Resp.notFound "No POST data sent") := by
  exact (c9_submit_request_validation (fun _ => none) (fun _ => none) 0 "GET" "S" ""
      { machines := [], machineGroups := [], applications := [],
        items := [], metas := [] }).1 (by decide)

/-- C10: a payload that decodes and parses to an empty list is treated like a
parse failure: the database (items, metas, machines) is returned unchanged,
yet the response still acknowledges the submission naming the serial. -/
theorem c10_empty_plist_is_noop (decode : DecodeFun) (readPlist : PlistFun)
    (now : Nat) (serial payload : String) (db : DB) (mach : Machine)
    (bytes : List Nat)
    (hs : serial ≠ "")
    (hfind : db.machines.find? (fun m => m.serial = serial) = some mach)
    (hp : payload ≠ "")
    (hdec : decode (spaceToPlus payload) = some bytes)
    (hparse : readPlist bytes = some []) :
    inventory_submit decode readPlist now "POST" serial payload db =
      (db, Resp.ok ("Inventory submmitted for " ++ serial ++ ".\n")) := by
  simp [inventory_submit, hs, hfind, hp, hdec, hparse]

/-- Closed witness for `c10_empty_plist_is_noop`. -/
theorem c10_witness :
    inventory_submit (fun _ => some [97]) (fun _ => some []) 7 "POST" "SER1" "x"
      { machines := [⟨1, "SER1", 10, 0⟩], machineGroups := [],
        applications := [], items := [⟨1, ⟨"b", "n", "bn"⟩, "1", "/a"⟩],
        metas := [] } =
      ({ machines := [⟨1, "SER1", 10, 0⟩], machineGroups := [],
         applications := [], items := [⟨1, ⟨"b", "n", "bn"⟩, "1", "/a"⟩],
         metas := [] }, Resp.ok "Inventory submmitted for SER1.\n") := by
  exact c10_empty_plist_is_noop (fun _ => some [97]) (fun _ => some []) 7 "SER1" "x"
    { machines := [⟨1, "SER1", 10, 0⟩], machineGroups := [],
      applications := [], items := [⟨1, ⟨"b", "n", "bn"⟩, "1", "/a"⟩],
      metas := [] } ⟨1, "SER1", 10, 0⟩ [97]
    (by decide) (by decide) (by decide) rfl rfl

/-! ## C2: unparsable payloads -/

/-- C2 (amended): a non-empty payload that fails to decode or parse leaves the
whole database unchanged and the request succeeds — but the response is the
submission acknowledgement naming the serial, the same body as a successful
submission, not the "No inventory submitted" body. -/
theorem c2_unparsable_payload_noop (decode : DecodeFun) (readPlist : PlistFun)
    (now : Nat) (serial payload : String) (db : DB) (mach : Machine)
    (hs : serial ≠ "")
    (hfind : db.machines.find? (fun m => m.serial = serial) = some mach)
    (hp : payload ≠ "")
    (hfail : decode (spaceToPlus payload) = none ∨
      ∃ bytes, decode (spaceToPlus payload) = some bytes ∧ readPlist bytes = none) :
    inventory_submit decode readPlist now "POST" serial payload db =
      (db, Resp.ok ("Inventory submmitted for " ++ serial ++ ".\n")) := by
  rcases hfail with h | ⟨bytes, h1, h2⟩ <;> simp [inventory_submit, hs, hfind, hp, *]

/-- Closed witness for `c2_unparsable_payload_noop`. -/
theorem c2_witness :
    inventory_submit (fun _ => none) (fun _ => none) 3 "POST" "SER1" "%%%"
      { machines := [⟨1, "SER1", 10, 0⟩], machineGroups := [],
        applications := [], items := [⟨1, ⟨"b", "n", "bn"⟩, "1", "/a"⟩],
        metas := [(1, "oldhash")] } =
      ({ machines := [⟨1, "SER1", 10, 0⟩], machineGroups := [],
         applications := [], items := [⟨1, ⟨"b", "n", "bn"⟩, "1", "/a"⟩],
         metas := [(1, "oldhash")] }, Resp.ok "Inventory submmitted for SER1.\n") := by
  exact c2_unparsable_payload_noop (fun _ => none) (fun _ => none) 3 "SER1" "%%%"
    { machines := [⟨1, "SER1", 10, 0⟩], machineGroups := [],
      applications := [], items := [⟨1, ⟨"b", "n", "bn"⟩, "1", "/a"⟩],
      metas := [(1, "oldhash")] } ⟨1, "SER1", 10, 0⟩
    (by decide) (by decide) (by decide) (Or.inl rfl)

/-- C2 counterexample: on a concrete unparsable non-empty payload the response
body is the submission acknowledgement naming the serial, not the
"No inventory submitted" body the absent-payload path produces — refuting the
claim's "responds as if no inventory was submitted". -/
theorem c2_counterexample :
    (inventory_submit (fun _ => none) (fun _ => none) 3 "POST" "SER1" "%%%"
        { machines := [⟨1, "SER1", 10, 0⟩], machineGroups := [],
          applications := [], items := [], metas := [] }).2 =
      Resp.ok "Inventory submmitted for SER1.\n" ∧
    Resp.ok "Inventory submmitted for SER1.\n" ≠
      Resp.ok "No inventory submitted.\n" := by
  decide

/-! ## The entry loop: items created and applications get-or-created -/

/-- The items accumulated by the entry loop: the initial list, then exactly one
new item per non-ignored entry, in payload order. -/
theorem processEntries_items_eq (mid : Nat) (es : List PlistEntry) :
    ∀ (apps : List Application) (items : List InventoryItem),
      (processEntries mid apps items es).2 =
        items ++ (es.filter (fun e => !entryIgnored e)).map (mkItem mid) := by
  induction es with
  | nil => intro apps items; simp [processEntries]
  | cons e es ih =>
    intro apps items
    simp only [processEntries]
    rw [ih]
    by_cases h : entryIgnored e <;> simp [h, List.filter_cons]

/-- The entry loop never removes an application. -/
theorem processEntries_apps_mono (mid : Nat) (es : List PlistEntry) :
    ∀ (apps : List Application) (items : List InventoryItem) (a : Application),
      a ∈ apps → a ∈ (processEntries mid apps items es).1 := by
  induction es with
  | nil => intro apps items a ha; simpa [processEntries] using ha
  | cons e es ih =>
    intro apps items a ha
    simp only [processEntries]
    apply ih
    unfold getOrCreateApp
    by_cases h : entryApplication e ∈ apps <;> simp [h, ha]

/-- Every entry of the loop — ignored or not — has its Application triple
get-or-created: it is present in the resulting application table. -/
theorem processEntries_apps_mem (mid : Nat) (es : List PlistEntry) :
    ∀ (apps : List Application) (items : List InventoryItem) (e : PlistEntry),
      e ∈ es → entryApplication e ∈ (processEntries mid apps items es).1 := by
  induction es with
  | nil => intro _ _ e h; cases h
  | cons e0 es ih =>
    intro apps items e he
    rcases List.mem_cons.mp he with rfl | he'
    · simp only [processEntries]
      apply processEntries_apps_mono
      unfold getOrCreateApp
      by_cases h : entryApplication e ∈ apps <;> simp [h]
    · simp only [processEntries]
      exact ih _ _ e he'

/-! ## C1: replace-all semantics of a successful submission -/

/-- Reduction of `inventory_submit` on its success path: resolvable serial,
non-empty payload, decode and parse succeed with a non-empty list. -/
theorem inventory_submit_success (decode : DecodeFun) (readPlist : PlistFun)
    (now : Nat) (serial payload : String) (db : DB) (mach : Machine)
    (bytes : List Nat) (e : PlistEntry) (es : List PlistEntry)
    (hs : serial ≠ "")
    (hfind : db.machines.find? (fun m => m.serial = serial) = some mach)
    (hp : payload ≠ "")
    (hdec : decode (spaceToPlus payload) = some bytes)
    (hparse : readPlist bytes = some (e :: es)) :
    inventory_submit decode readPlist now "POST" serial payload db =
      (applyInventory db mach.id (sha256hex bytes) (e :: es) now,
       Resp.ok ("Inventory submmitted for " ++ serial ++ ".\n")) := by
  simp [inventory_submit, hs, hfind, hp, hdec, hparse]

/-- The item table after `applyInventory`: the other machines' rows followed by
one fresh row per non-ignored entry. -/
theorem applyInventory_items (db : DB) (mid : Nat) (hash : String)
    (entries : List PlistEntry) (now : Nat) :
    (applyInventory db mid hash entries now).items =
      db.items.filter (fun i => i.machineId ≠ mid) ++
        (entries.filter (fun e => !entryIgnored e)).map (mkItem mid) := by
  simp [applyInventory, processEntries_items_eq]

/-- Rows already filtered away from a machine never reappear for it. -/
theorem filter_ne_then_eq (mid : Nat) (l : List InventoryItem) :
    (l.filter (fun i => i.machineId ≠ mid)).filter (fun i => i.machineId = mid) = [] := by
  induction l with
  | nil => rfl
  | cons a l ih => by_cases h : a.machineId = mid <;> simp [List.filter_cons, h, ih]

/-- Filtering out one machine's rows is idempotent. -/
theorem filter_ne_idem (mid : Nat) (l : List InventoryItem) :
    (l.filter (fun i => i.machineId ≠ mid)).filter (fun i => i.machineId ≠ mid) =
      l.filter (fun i => i.machineId ≠ mid) := by
  induction l with
  | nil => rfl
  | cons a l ih => by_cases h : a.machineId = mid <;> simp [List.filter_cons, h, ih]

/-- Every row created by `mkItem mid` belongs to machine `mid`. -/
theorem filter_eq_map_mkItem (mid : Nat) (l : List PlistEntry) :
    (l.map (mkItem mid)).filter (fun i => i.machineId = mid) = l.map (mkItem mid) := by
  induction l with
  | nil => rfl
  | cons e l ih => simp [List.filter_cons, mkItem, ih]

/-- No row created by `mkItem mid` belongs to another machine. -/
theorem filter_ne_map_mkItem (mid : Nat) (l : List PlistEntry) :
    (l.map (mkItem mid)).filter (fun i => i.machineId ≠ mid) = [] := by
  induction l with
  | nil => rfl
  | cons e l ih => simp [List.filter_cons, mkItem, ih]

/-- C1 (amended with "non-empty parsed list"): after a submission whose serial
resolves and whose payload decodes and parses to a non-empty list, the
machine's InventoryItem rows are exactly one row per non-ignored payload entry
— application triple, version and path taken field-for-field from the entry —
and no other machine's rows change.  Old rows for the machine are deleted, not
merged. -/
theorem c1_submit_replaces_items (decode : DecodeFun) (readPlist : PlistFun)
    (now : Nat) (serial payload : String) (db : DB) (mach : Machine)
    (bytes : List Nat) (e : PlistEntry) (es : List PlistEntry)
    (hs : serial ≠ "")
    (hfind : db.machines.find? (fun m => m.serial = serial) = some mach)
    (hp : payload ≠ "")
    (hdec : decode (spaceToPlus payload) = some bytes)
    (hparse : readPlist bytes = some (e :: es)) :
    ((inventory_submit decode readPlist now "POST" serial payload db).1).items.filter
        (fun i => i.machineId = mach.id) =
      ((e :: es).filter (fun x => !entryIgnored x)).map (mkItem mach.id) ∧
    ((inventory_submit decode readPlist now "POST" serial payload db).1).items.filter
        (fun i => i.machineId ≠ mach.id) =
      db.items.filter (fun i => i.machineId ≠ mach.id) := by
  rw [inventory_submit_success decode readPlist now serial payload db mach bytes e es
    hs hfind hp hdec hparse]
  constructor
  · rw [applyInventory_items, List.filter_append, filter_ne_then_eq,
      filter_eq_map_mkItem, List.nil_append]
  · rw [applyInventory_items, List.filter_append, filter_ne_idem,
      filter_ne_map_mkItem, List.append_nil]

/-- Closed witness for `c1_submit_replaces_items`: a one-entry payload becomes
exactly one InventoryItem for the machine. -/
theorem c1_witness :
    ((inventory_submit (fun _ => some [97, 98, 99])
        (fun _ => some [⟨some "com.foo.App", some "App", some "App",
          some "1.0", some "/Applications/App.app"⟩])
        7 "POST" "ABC123" "payload"
        { machines := [⟨1, "ABC123", 10, 0⟩], machineGroups := [],
          applications := [], items := [⟨1, ⟨"old", "Old", "Old"⟩, "0.9", "/old"⟩],
          metas := [] }).1).items.filter (fun i => i.machineId = 1) =
      [⟨1, ⟨"com.foo.App", "App", "App"⟩, "1.0", "/Applications/App.app"⟩] := by
  have h := (c1_submit_replaces_items (fun _ => some [97, 98, 99])
    (fun _ => some [⟨some "com.foo.App", some "App", some "App",
      some "1.0", some "/Applications/App.app"⟩])
    7 "ABC123" "payload"
    { machines := [⟨1, "ABC123", 10, 0⟩], machineGroups := [],
      applications := [], items := [⟨1, ⟨"old", "Old", "Old"⟩, "0.9", "/old"⟩],
      metas := [] } ⟨1, "ABC123", 10, 0⟩ [97, 98, 99]
    ⟨some "com.foo.App", some "App", some "App", some "1.0", some "/Applications/App.app"⟩
    [] (by decide) (by decide) (by decide) rfl rfl).1
  rw [h]
  decide

/-- C1 counterexample: a payload that decodes and parses successfully to the
EMPTY list is falsy in Python, so the handler deletes nothing — the machine's
old row survives, while the claim demands the item set equal the (empty) set
of non-ignored entries. -/
theorem c1_counterexample :
    ((inventory_submit (fun _ => some [97]) (fun _ => some []) 7 "POST" "SER1" "x"
        { machines := [⟨1, "SER1", 10, 0⟩], machineGroups := [],
          applications := [], items := [⟨1, ⟨"b", "n", "bn"⟩, "1", "/a"⟩],
          metas := [] }).1).items.filter (fun i => i.machineId = 1) ≠
      (([] : List PlistEntry).filter (fun x => !entryIgnored x)).map (mkItem 1) := by
  decide

/-! ## C4: the stored hash -/

/-- Overwriting the existing `Inventory` row: the lookup finds the new hash. -/
theorem find?_replace_meta (mid : Nat) (h : String) :
    ∀ metas : List (Nat × String), metas.any (fun p => p.1 = mid) = true →
      (metas.map (fun p => if p.1 = mid then (mid, h) else p)).find?
        (fun p => p.1 = mid) = some (mid, h) := by
  intro metas
  induction metas with
  | nil => intro hany; simp at hany
  | cons p ps ih =>
    intro hany
    by_cases hp : p.1 = mid
    · simp [hp]
    · have hps : ps.any (fun q => q.1 = mid) = true := by simpa [hp] using hany
      simp [hp, ih hps]

/-- Creating a fresh `Inventory` row: the lookup finds the appended hash. -/
theorem find?_append_meta (mid : Nat) (h : String) :
    ∀ metas : List (Nat × String), metas.any (fun p => p.1 = mid) = false →
      (metas ++ [(mid, h)]).find? (fun p => p.1 = mid) = some (mid, h) := by
  intro metas
  induction metas with
  | nil => intro _; simp
  | cons p ps ih =>
    intro hany
    have hp : ¬p.1 = mid := by
      intro hcontra
      simp [hcontra] at hany
    have hps : ps.any (fun q => q.1 = mid) = false := by simpa [hp] using hany
    simp [hp, ih hps]

/-- After the upsert, the machine's `Inventory` row holds exactly the new hash. -/
theorem upsertMeta_find (metas : List (Nat × String)) (mid : Nat) (h : String) :
    (upsertMeta metas mid h).find? (fun p => p.1 = mid) = some (mid, h) := by
  unfold upsertMeta
  split
  · next hany => exact find?_replace_meta mid h metas hany
  · next hany => exact find?_append_meta mid h metas ((Bool.not_eq_true _) ▸ hany)

/-- The `last_inventory_update` stamp changes neither serials nor which machine
a serial lookup finds. -/
theorem find?_machines_update (serial : String) (mid now : Nat) :
    ∀ ms : List Machine,
      (ms.map (fun m =>
          if m.id = mid then { m with lastInventoryUpdate := now } else m)).find?
          (fun m => m.serial = serial) =
        (ms.find? (fun m => m.serial = serial)).map
          (fun m => if m.id = mid then { m with lastInventoryUpdate := now } else m) := by
  intro ms
  induction ms with
  | nil => rfl
  | cons m ms ih =>
    by_cases hser : m.serial = serial
    · by_cases hid : m.id = mid <;> simp [hser, hid]
    · by_cases hid : m.id = mid <;> simp [hser, hid, ih]

/-- `hexDigitChar` of a value below 16 is a lowercase hex digit. -/
theorem hexDigitChar_mem (n : Nat) (hn : n < 16) :
    hexDigitChar n ∈ "0123456789abcdef".data := by
  interval_cases n <;> decide

/-- Every character of a `sha256hex` digest is a lowercase hex digit. -/
theorem sha256hex_lowercase (msg : List Nat) :
    ∀ c ∈ (sha256hex msg).data, c ∈ "0123456789abcdef".data := by
  intro c hc
  have hc' : c ∈ ((sha256words msg).map wordHexChars).flatten := hc
  obtain ⟨l, hl, hcl⟩ := List.mem_flatten.mp hc'
  obtain ⟨w, -, rfl⟩ := List.mem_map.mp hl
  simp only [wordHexChars] at hcl
  obtain ⟨i, -, rfl⟩ := List.mem_map.mp hcl
  exact hexDigitChar_mem _ (Nat.mod_lt _ (by norm_num))

/-- Hash lookup on the happy path: known serial, stored `Inventory` row. -/
theorem inventory_hash_found (serial : String) (db : DB) (m : Machine)
    (p : Nat × String)
    (hs : serial ≠ "")
    (hm : db.machines.find? (fun x => x.serial = serial) = some m)
    (hmeta : db.metas.find? (fun q => q.1 = m.id) = some p) :
    inventory_hash serial db = Resp.ok p.2 := by
  simp [inventory_hash, hs, hm, hmeta]

/-- C4 (amended with "non-empty parsed list"): a submission that decodes and
parses to a non-empty list stores `sha256(raw decoded bytes)` — hashed before
parsing — as a lowercase hex string in the machine's `Inventory` row (created
when absent, overwritten otherwise), and the hash lookup for that serial then
returns exactly that string. -/
theorem c4_hash_stored_and_returned (decode : DecodeFun) (readPlist : PlistFun)
    (now : Nat) (serial payload : String) (db : DB) (mach : Machine)
    (bytes : List Nat) (e : PlistEntry) (es : List PlistEntry)
    (hs : serial ≠ "")
    (hfind : db.machines.find? (fun m => m.serial = serial) = some mach)
    (hp : payload ≠ "")
    (hdec : decode (spaceToPlus payload) = some bytes)
    (hparse : readPlist bytes = some (e :: es)) :
    ((inventory_submit decode readPlist now "POST" serial payload db).1).metas.find?
        (fun p => p.1 = mach.id) = some (mach.id, sha256hex bytes) ∧
    inventory_hash serial
        (inventory_submit decode readPlist now "POST" serial payload db).1 =
      Resp.ok (sha256hex bytes) ∧
    ((inventory_submit decode readPlist now "POST" serial payload db).1).metas.length =
      (if db.metas.any (fun p => p.1 = mach.id) then db.metas.length
       else db.metas.length + 1) ∧
    ∀ c ∈ (sha256hex bytes).data, c ∈ "0123456789abcdef".data := by
  rw [inventory_submit_success decode readPlist now serial payload db mach bytes e es
    hs hfind hp hdec hparse]
  refine ⟨?_, ?_, ?_, sha256hex_lowercase bytes⟩
  · exact upsertMeta_find db.metas mach.id (sha256hex bytes)
  · refine inventory_hash_found serial _ { mach with lastInventoryUpdate := now }
      (mach.id, sha256hex bytes) hs ?_ ?_
    · show (db.machines.map _).find? _ = _
      rw [find?_machines_update serial mach.id now db.machines, hfind]
      simp
    · show (upsertMeta db.metas mach.id (sha256hex bytes)).find? _ = _
      exact upsertMeta_find db.metas mach.id (sha256hex bytes)
  · show (upsertMeta db.metas mach.id (sha256hex bytes)).length = _
    unfold upsertMeta
    split <;> simp

/-- Closed witness for `c4_hash_stored_and_returned`: after submitting a
payload whose decoded bytes are "abc", the hash lookup returns the SHA-256
digest of "abc". -/
theorem c4_witness :
    inventory_hash "ABC123"
      (inventory_submit (fun _ => some [97, 98, 99])
        (fun _ => some [⟨some "com.foo.App", some "App", some "App",
          some "1.0", some "/Applications/App.app"⟩])
        7 "POST" "ABC123" "payload"
        { machines := [⟨1, "ABC123", 10, 0⟩], machineGroups := [],
          applications := [], items := [], metas := [] }).1 =
      Resp.ok "ba7816bf8f01cfea414140de5dae2223b00361a396177a9cb410ff61f20015ad" := by
  have h := (c4_hash_stored_and_returned (fun _ => some [97, 98, 99])
    (fun _ => some [⟨some "com.foo.App", some "App", some "App",
      some "1.0", some "/Applications/App.app"⟩])
    7 "ABC123" "payload"
    { machines := [⟨1, "ABC123", 10, 0⟩], machineGroups := [],
      applications := [], items := [], metas := [] } ⟨1, "ABC123", 10, 0⟩ [97, 98, 99]
    ⟨some "com.foo.App", some "App", some "App", some "1.0", some "/Applications/App.app"⟩
    [] (by decide) (by decide) (by decide) rfl rfl).2.1
  rw [sha256hex_abc] at h
  exact h

/-- C4 counterexample: a payload that decodes and parses successfully to the
EMPTY list is falsy, so no `Inventory` row is created: the subsequent hash
lookup returns the empty string, not the SHA-256 digest of the decoded
bytes. -/
theorem c4_counterexample :
    ((inventory_submit (fun _ => some [97, 98, 99]) (fun _ => some []) 7 "POST"
        "SER1" "x"
        { machines := [⟨1, "SER1", 10, 0⟩], machineGroups := [],
          applications := [], items := [], metas := [] }).1).metas = [] ∧
    inventory_hash "SER1"
        (inventory_submit (fun _ => some [97, 98, 99]) (fun _ => some []) 7 "POST"
          "SER1" "x"
          { machines := [⟨1, "SER1", 10, 0⟩], machineGroups := [],
            applications := [], items := [], metas := [] }).1 = Resp.ok "" ∧
    sha256hex [97, 98, 99] ≠ "" := by
  refine ⟨rfl, rfl, ?_⟩
  rw [sha256hex_abc]
  decide

/-! ## C5: ignore-list entries -/

/-- C5 (amended): in a successful non-empty submission EVERY entry — ignored
ones included — has its Application triple get-or-created, because the
`get_or_create` call precedes the ignore-list check; ignored entries produce
no InventoryItem, and each other entry produces exactly one, with version and
path defaulting to the empty string when absent. -/
theorem c5_ignored_entry_handling (decode : DecodeFun) (readPlist : PlistFun)
    (now : Nat) (serial payload : String) (db : DB) (mach : Machine)
    (bytes : List Nat) (e : PlistEntry) (es : List PlistEntry)
    (hs : serial ≠ "")
    (hfind : db.machines.find? (fun m => m.serial = serial) = some mach)
    (hp : payload ≠ "")
    (hdec : decode (spaceToPlus payload) = some bytes)
    (hparse : readPlist bytes = some (e :: es)) :
    (∀ x ∈ (e :: es), entryApplication x ∈
      ((inventory_submit decode readPlist now "POST" serial payload db).1).applications) ∧
    ((inventory_submit decode readPlist now "POST" serial payload db).1).items.filter
        (fun i => i.machineId = mach.id) =
      ((e :: es).filter (fun x => !entryIgnored x)).map (mkItem mach.id) := by
  rw [inventory_submit_success decode readPlist now serial payload db mach bytes e es
    hs hfind hp hdec hparse]
  constructor
  · intro x hx
    show entryApplication x ∈ (processEntries mach.id db.applications
      (db.items.filter (fun i => i.machineId ≠ mach.id)) (e :: es)).1
    exact processEntries_apps_mem mach.id (e :: es) _ _ x hx
  · rw [applyInventory_items, List.filter_append, filter_ne_then_eq,
      filter_eq_map_mkItem, List.nil_append]

/-- Closed witness for `c5_ignored_entry_handling`. -/
theorem c5_witness :
    entryApplication ⟨some "com.apple.print.PrinterProxy", some "PrinterProxy",
        some "PrinterProxy", none, none⟩ ∈
      ((inventory_submit (fun _ => some [97])
        (fun _ => some [⟨some "com.apple.print.PrinterProxy", some "PrinterProxy",
          some "PrinterProxy", none, none⟩])
        7 "POST" "SER1" "x"
        { machines := [⟨1, "SER1", 10, 0⟩], machineGroups := [],
          applications := [], items := [], metas := [] }).1).applications := by
  exact (c5_ignored_entry_handling (fun _ => some [97])
    (fun _ => some [⟨some "com.apple.print.PrinterProxy", some "PrinterProxy",
      some "PrinterProxy", none, none⟩])
    7 "SER1" "x"
    { machines := [⟨1, "SER1", 10, 0⟩], machineGroups := [],
      applications := [], items := [], metas := [] } ⟨1, "SER1", 10, 0⟩ [97]
    ⟨some "com.apple.print.PrinterProxy", some "PrinterProxy", some "PrinterProxy",
      none, none⟩
    [] (by decide) (by decide) (by decide) rfl rfl).1 _ (List.mem_singleton.mpr rfl)

/-- C5 counterexample: submitting only the ignored PrinterProxy entry creates
NO InventoryItem but DOES get-or-create an Application row for it — refuting
"no Application row is obtained or created for it". -/
theorem c5_counterexample :
    ((inventory_submit (fun _ => some [97])
        (fun _ => some [⟨some "com.apple.print.PrinterProxy", some "PrinterProxy",
          some "PrinterProxy", none, none⟩])
        7 "POST" "SER1" "x"
        { machines := [⟨1, "SER1", 10, 0⟩], machineGroups := [],
          applications := [], items := [], metas := [] }).1).applications =
      [⟨"com.apple.print.PrinterProxy", "PrinterProxy", "PrinterProxy"⟩] ∧
    ((inventory_submit (fun _ => some [97])
        (fun _ => some [⟨some "com.apple.print.PrinterProxy", some "PrinterProxy",
          some "PrinterProxy", none, none⟩])
        7 "POST" "SER1" "x"
        { machines := [⟨1, "SER1", 10, 0⟩], machineGroups := [],
          applications := [], items := [], metas := [] }).1).items = [] := by
  exact ⟨rfl, rfl⟩

/-! ## Query side: scope filtering and the distinct-machine view
(`GroupMixin.filter_inventoryitem_by_group`, `InventoryListView.get_queryset`) -/

/-- The scope selected by the URL's `group_type`/`group_id` segments, as
`GroupMixin.classes` maps them. -/
inductive Scope where
  | all
  | businessUnit (buId : Nat)
  | machineGroup (mgId : Nat)
  | machine (mId : Nat)
deriving DecidableEq, Repr

/-- Resolve an item's `machine` foreign key to its row. -/
def itemMachine (db : DB) (i : InventoryItem) : Option Machine :=
  db.machines.find? (fun m => m.id = i.machineId)

/-- `filter_inventoryitem_by_group`: the ORM filter paths
`machine__machine_group__business_unit`, `machine__machine_group` and
`machine`, read as join predicates on an item. -/
def itemInScope (db : DB) (s : Scope) (i : InventoryItem) : Bool :=
  match s with
  | Scope.all => true
  | Scope.businessUnit b =>
    match itemMachine db i with
    | some m =>
      match db.machineGroups.find? (fun g => g.id = m.machineGroupId) with
      | some g => g.businessUnitId = b
      | none => false
    | none => false
  | Scope.machineGroup gid =>
    match itemMachine db i with
    | some m => m.machineGroupId = gid
    | none => false
  | Scope.machine mid => i.machineId = mid

/-- The `field_type`/`field_value` filter of `get_queryset`: `path` and
`version` filter exactly; any other `field_type` applies no filter. -/
def fieldMatch (fieldType fieldValue : String) (i : InventoryItem) : Bool :=
  if fieldType = "path" then i.path = fieldValue
  else if fieldType = "version" then i.version = fieldValue
  else true

/-- `InventoryListView.get_queryset` before the distinct step: scope filter,
then application filter, then field filter. -/
def inventoryQuery (db : DB) (s : Scope) (app : Application) (ft fv : String) :
    List InventoryItem :=
  ((db.items.filter (itemInScope db s)).filter
      (fun i => i.application = app)).filter (fieldMatch ft fv)

/-- Membership characterization of the filtered query. -/
theorem mem_inventoryQuery (db : DB) (s : Scope) (app : Application)
    (ft fv : String) (i : InventoryItem) :
    i ∈ inventoryQuery db s app ft fv ↔
      i ∈ db.items ∧ itemInScope db s i = true ∧ i.application = app ∧
        fieldMatch ft fv i = true := by
  simp only [inventoryQuery, List.mem_filter, and_assoc, decide_eq_true_eq]

/-- Keep the first occurrence of each machine id (`DISTINCT` / `DISTINCT ON`). -/
def dedupFirst : List Nat → List Nat
  | [] => []
  | x :: xs => x :: (dedupFirst xs).filter (fun y => y ≠ x)

/-- `dedupFirst` preserves membership. -/
theorem mem_dedupFirst (x : Nat) : ∀ l : List Nat, x ∈ dedupFirst l ↔ x ∈ l
  | [] => Iff.rfl
  | a :: l => by
    simp only [dedupFirst, List.mem_cons, List.mem_filter, mem_dedupFirst x l]
    constructor
    · rintro (rfl | ⟨h, -⟩)
      · exact Or.inl rfl
      · exact Or.inr h
    · rintro (rfl | h)
      · exact Or.inl rfl
      · by_cases hx : x = a
        · exact Or.inl hx
        · exact Or.inr ⟨h, by simpa using hx⟩

/-- Postgres branch of `get_queryset`:
`queryset.order_by().distinct("machine")`, read as its set of machine ids. -/
def distinctMachineIdsNative (db : DB) (s : Scope) (app : Application)
    (ft fv : String) : List Nat :=
  dedupFirst ((inventoryQuery db s app ft fv).map (fun i => i.machineId))

/-- Fallback branch of `get_queryset`:
`values_list("machine", flat=True).distinct()` and then
`Machine.objects.filter(id__in=machines)`, read as machine ids. -/
def distinctMachineIdsFallback (db : DB) (s : Scope) (app : Application)
    (ft fv : String) : List Nat :=
  let ids := dedupFirst ((inventoryQuery db s app ft fv).map (fun i => i.machineId))
  (db.machines.filter (fun m => m.id ∈ ids)).map (fun m => m.id)

/-- C3: with referential integrity (every item's machine id has a Machine
row), the native distinct-on-machine path and the fallback re-query path of
the distinct-machine view contain exactly the same machine ids, for every
dataset and every scope/application/field filter. -/
theorem c3_distinct_paths_agree (db : DB) (s : Scope) (app : Application)
    (ft fv : String)
    (hfk : ∀ i ∈ db.items, ∃ m ∈ db.machines, m.id = i.machineId) :
    ∀ x, x ∈ distinctMachineIdsNative db s app ft fv ↔
      x ∈ distinctMachineIdsFallback db s app ft fv := by
  intro x
  unfold distinctMachineIdsNative distinctMachineIdsFallback
  rw [mem_dedupFirst]
  constructor
  · intro hx
    obtain ⟨i, hi, rfl⟩ := List.mem_map.mp hx
    have hitems : i ∈ db.items := ((mem_inventoryQuery db s app ft fv i).mp hi).1
    obtain ⟨m, hm, hmid⟩ := hfk i hitems
    refine List.mem_map.mpr ⟨m, List.mem_filter.mpr ⟨hm, ?_⟩, hmid⟩
    have : m.id ∈ (inventoryQuery db s app ft fv).map (fun i => i.machineId) :=
      hmid ▸ List.mem_map.mpr ⟨i, hi, rfl⟩
    simpa [mem_dedupFirst] using this
  · intro hx
    obtain ⟨m, hm, rfl⟩ := List.mem_map.mp hx
    have := (List.mem_filter.mp hm).2
    simpa [mem_dedupFirst] using this

/-- Closed witness for `c3_distinct_paths_agree`. -/
theorem c3_witness :
    1 ∈ distinctMachineIdsFallback
      { machines := [⟨1, "SER1", 10, 0⟩, ⟨2, "SER2", 10, 0⟩],
        machineGroups := [⟨10, 100⟩], applications := [⟨"b", "n", "bn"⟩],
        items := [⟨1, ⟨"b", "n", "bn"⟩, "1.0", "/a"⟩,
                  ⟨1, ⟨"b", "n", "bn"⟩, "1.0", "/b"⟩],
        metas := [] }
      Scope.all ⟨"b", "n", "bn"⟩ "all" "0" := by
  exact (c3_distinct_paths_agree
    { machines := [⟨1, "SER1", 10, 0⟩, ⟨2, "SER2", 10, 0⟩],
      machineGroups := [⟨10, 100⟩], applications := [⟨"b", "n", "bn"⟩],
      items := [⟨1, ⟨"b", "n", "bn"⟩, "1.0", "/a"⟩,
                ⟨1, ⟨"b", "n", "bn"⟩, "1.0", "/b"⟩],
      metas := [] }
    Scope.all ⟨"b", "n", "bn"⟩ "all" "0" (by decide) 1).mp (by decide)

/-- C7: with the machine's group and the group's business unit resolvable,
scope filtering is monotonic: the machine scope's inventory-item result set is
contained in its machine group's, that in its business unit's, and that in the
"all" scope's, for any fixed application and field filter. -/
theorem c7_scope_filter_monotonic (db : DB) (app : Application) (ft fv : String)
    (m : Machine) (g : MachineGroup)
    (hmfind : db.machines.find? (fun x => x.id = m.id) = some m)
    (hgfind : db.machineGroups.find? (fun x => x.id = g.id) = some g)
    (hmg : m.machineGroupId = g.id) :
    (∀ i ∈ inventoryQuery db (Scope.machine m.id) app ft fv,
       i ∈ inventoryQuery db (Scope.machineGroup g.id) app ft fv) ∧
    (∀ i ∈ inventoryQuery db (Scope.machineGroup g.id) app ft fv,
       i ∈ inventoryQuery db (Scope.businessUnit g.businessUnitId) app ft fv) ∧
    (∀ i ∈ inventoryQuery db (Scope.businessUnit g.businessUnitId) app ft fv,
       i ∈ inventoryQuery db Scope.all app ft fv) := by
  refine ⟨?_, ?_, ?_⟩ <;> intro i hi <;>
    rw [mem_inventoryQuery] at hi ⊢ <;>
    obtain ⟨hmem, hscope, happ, hf⟩ := hi <;>
    refine ⟨hmem, ?_, happ, hf⟩
  · have hid : i.machineId = m.id := by simpa [itemInScope] using hscope
    simp [itemInScope, itemMachine, hid, hmfind, hmg]
  · simp only [itemInScope] at hscope ⊢
    cases hmm : itemMachine db i with
    | none =>
      rw [hmm] at hscope
      simp at hscope
    | some m2 =>
      rw [hmm] at hscope
      have h2 : m2.machineGroupId = g.id := by simpa using hscope
      simp [h2, hgfind]
  · simp [itemInScope]

/-- Closed witness for `c7_scope_filter_monotonic`. -/
theorem c7_witness :
    (⟨1, ⟨"b", "n", "bn"⟩, "1.0", "/a"⟩ : InventoryItem) ∈
      inventoryQuery
        { machines := [⟨1, "SER1", 10, 0⟩], machineGroups := [⟨10, 100⟩],
          applications := [⟨"b", "n", "bn"⟩],
          items := [⟨1, ⟨"b", "n", "bn"⟩, "1.0", "/a"⟩], metas := [] }
        (Scope.machineGroup 10) ⟨"b", "n", "bn"⟩ "all" "0" := by
  exact (c7_scope_filter_monotonic
    { machines := [⟨1, "SER1", 10, 0⟩], machineGroups := [⟨10, 100⟩],
      applications := [⟨"b", "n", "bn"⟩],
      items := [⟨1, ⟨"b", "n", "bn"⟩, "1.0", "/a"⟩], metas := [] }
    ⟨"b", "n", "bn"⟩ "all" "0" ⟨1, "SER1", 10, 0⟩ ⟨10, 100⟩
    (by decide) (by decide) (by decide)).1
    ⟨1, ⟨"b", "n", "bn"⟩, "1.0", "/a"⟩ (by decide)

/-! ## C8: the CSV export filename
(`CSVResponseMixin.get_csv_filename`, `CSVExportView.get`) -/

/-- Uppercase hex digit, for percent-encoding. -/
def hexDigitUpper (n : Nat) : Char :=
  if n < 10 then Char.ofNat (48 + n) else Char.ofNat (55 + n)

/-- One character of `urllib.quote` output: letters, digits, `_.-` and the
default safe character `/` pass through; anything else is percent-encoded. -/
def quoteChar (c : Char) : List Char :=
  if c.isAlphanum || c = '_' || c = '.' || c = '-' || c = '/' then [c]
  else ['%', hexDigitUpper (c.toNat / 16 % 16), hexDigitUpper (c.toNat % 16)]

/-- `urllib.quote(field_value)` as used on the `where ... is ...` component. -/
def urlQuote (s : String) : String := String.mk ((s.data.map quoteChar).flatten)

/-- `CSVResponseMixin.get_csv_filename`: base name, an underscore-joined
identifier when components exist, and the `.csv` extension. -/
def get_csv_filename (csvName : String) (components : List String) : String :=
  let identifier := if components.isEmpty then ""
    else "_" ++ String.intercalate "_" components
  csvName ++ identifier ++ ".csv"

/-- The `components` list built by `CSVExportView.get`: the application
qualifier (the literal `list` when `application_id` is "0", else the id), then
`for` and the scope descriptor (plus the group id when the scope is not
`all`), then — only for a specific application — the `where ... is ...`
qualifier when `field_type` is not `all`. -/
def csvExportComponents (group_type group_id application_id field_type
    field_value : String) : List String :=
  if application_id = "0" then
    ["application", "list", "for", group_type] ++
      (if group_type ≠ "all" then [group_id] else [])
  else
    (["application", application_id, "for", group_type] ++
        (if group_type ≠ "all" then [group_id] else [])) ++
      (if field_type ≠ "all" then
        ["where", field_type, "is", urlQuote field_value] else [])

/-- The attachment filename of `CSVExportView` (its base name is
`CSVResponseMixin.csv_filename = "sal_inventory"`). -/
def csvExportFilename (group_type group_id application_id field_type
    field_value : String) : String :=
  get_csv_filename "sal_inventory"
    (csvExportComponents group_type group_id application_id field_type field_value)

/-- C8 (amended): the export filename is deterministic, but the component
order is application qualifier FIRST, then `for` followed by the scope
descriptor, then the `where field is value` qualifier; the components list is
never empty, so the filename is always the base name, one underscore, the
underscore-joined components and `.csv`. -/
theorem c8_filename_structure (gt gid aid ft fv : String) :
    csvExportComponents gt gid aid ft fv =
      (if aid = "0" then ["application", "list"] else ["application", aid]) ++
        (["for", gt] ++ (if gt ≠ "all" then [gid] else [])) ++
        (if aid ≠ "0" ∧ ft ≠ "all" then ["where", ft, "is", urlQuote fv]
         else []) ∧
    csvExportFilename gt gid aid ft fv =
      "sal_inventory" ++ "_" ++
        String.intercalate "_" (csvExportComponents gt gid aid ft fv) ++ ".csv" := by
  constructor
  · by_cases ha : aid = "0" <;> by_cases hg : gt = "all" <;>
      by_cases hf : ft = "all" <;> simp [csvExportComponents, ha, hg, hf]
  · have hne : (csvExportComponents gt gid aid ft fv).isEmpty = false := by
      by_cases ha : aid = "0" <;> simp [csvExportComponents, ha]
    simp only [csvExportFilename, get_csv_filename, hne, Bool.false_eq_true,
      if_false, String.append_assoc]

/-- Closed witness for `c8_filename_structure`: the concrete component order
at a fully filtered export. -/
theorem c8_witness :
    csvExportComponents "machine_group" "3" "55" "version" "1.0" =
      ["application", "55"] ++ (["for", "machine_group"] ++ ["3"]) ++
        ["where", "version", "is", urlQuote "1.0"] := by
  have h := (c8_filename_structure "machine_group" "3" "55" "version" "1.0").1
  simpa using h

/-- C8 counterexample: a concrete export filename.  The scope descriptor
(`machine_group`, `3`) appears AFTER the application qualifier
(`application_55`), refuting the claimed order "scope descriptor first, then
the for-application qualifier": the first joined component is `application`,
not the scope descriptor. -/
theorem c8_counterexample :
    csvExportFilename "machine_group" "3" "55" "version" "1.0" =
      "sal_inventory_application_55_for_machine_group_3_where_version_is_1.0.csv" ∧
    (csvExportComponents "machine_group" "3" "55" "version" "1.0").head? =
      some "application" ∧
    "application" ≠ "machine_group" := by
  refine ⟨?_, by decide, by decide⟩
  decide
